import Mathlib

set_option maxRecDepth 100000

/-!
Verification of the flexcomm clock-sharing and personality-selection core
(`src/flexcomm.rs`) of the embassy-imxrt repository.

The embedding models:
* the closed set of peripheral instances implementing the sealed
  `FlexcommLowLevel` trait (`impl_flexcomm!(0..7)` plus the special
  `FLEXCOMM14` / `FLEXCOMM15` impls);
* the register writes and collaborator invocations that `enable` / `disable`
  perform, as pure state transformers over an explicit register/refcount
  state plus an append-only event trace recording the order of effects;
* the `AtomicU8` refcount protocol of `FlexcommRef::new` / `Clone` / `Drop`
  (8-bit machine arithmetic is modelled as `Nat` with explicit `% 256`);
* the `into_mode!` capability sets and the personality-select register write.
-/

namespace Flexcomm

/-- The peripheral identities that implement the sealed `FlexcommLowLevel`
interface in `src/flexcomm.rs`: the eight uniform instances generated by
`impl_flexcomm!(0, 1, 2, 3, 4, 5, 6, 7)` plus the special-layout
`FLEXCOMM14` and `FLEXCOMM15` impls. The inductive is exhaustive, modelling
the sealing: no further identities implement the interface. -/
inductive FlexcommInstance
  | fc0 | fc1 | fc2 | fc3 | fc4 | fc5 | fc6 | fc7
  | fc14
  | fc15
deriving DecidableEq, Repr, Fintype

/-- Register-layout class of an instance: the uniform indexed
`clkctl1.flexcomm(idx)` layout versus the dedicated `fc14.../fc15...`
registers of the two special instances. -/
inductive Layout
  | uniform
  | special
deriving DecidableEq, Repr

/-- Layout class of each implementing instance, read off from which impl
block provides its `FlexcommLowLevel` implementation. -/
def layout : FlexcommInstance → Layout
  | .fc14 => .special
  | .fc15 => .special
  | _ => .uniform

/-- All instances with a `sealed::Sealed` + `FlexcommLowLevel` impl, in
source order. -/
def allInstances : List FlexcommInstance :=
  [.fc0, .fc1, .fc2, .fc3, .fc4, .fc5, .fc6, .fc7, .fc14, .fc15]

/-- The `Clock` enum of `flexcomm.rs` (clock selection options). -/
inductive Clock
  | sfro
  | ffro
  | audioPll
  | master
  | fcnFrgMain
  | fcnFrgPll
  | fcnFrgSfro
  | fcnFrgFfro
  | none
deriving DecidableEq, Repr, Fintype

/-- Values writable to the primary clock-select mux (`fcfclksel` /
`fc14fclksel` / `fc15fclksel`), named after the PAC writer variants. -/
inductive FcSel
  | sfroClk
  | ffroClk
  | audioPllClk
  | masterClk
  | fcnFrgClk
  | none
deriving DecidableEq, Repr, Fintype

/-- Values writable to the fractional-rate-generator mux (`frgclksel` /
`frg14clksel` / `frg15clksel`), named after the PAC writer variants. -/
inductive FrgSel
  | mainClk
  | frgPllClk
  | sfroClk
  | ffroClk
  | none
deriving DecidableEq, Repr, Fintype

/-- Protocol personalities selectable through the `pselid().persel()` field
by the `into_mode!` generated traits. -/
inductive Persel
  | usart
  | spi
  | i2c
  | i2s_transmit
  | i2s_receive
deriving DecidableEq, Repr, Fintype

/-- Observable effects, recorded in program order: the three clock register
writes and the clock/reset collaborator calls of `enable` / `disable`, the
personality-select write of the `into_mode!` traits, and the abort raised by
the failed `assert_eq!` in `FlexcommRef::new`. -/
inductive Event
  | writeFcfclksel (i : FlexcommInstance) (v : FcSel)
  | writeFrgclksel (i : FlexcommInstance) (v : FrgSel)
  | writeFrgctl (i : FlexcommInstance) (mult : Nat)
  | enableAndReset (i : FlexcommInstance)
  | disableClock (i : FlexcommInstance)
  | writePselid (i : FlexcommInstance) (p : Persel)
  | abort
deriving DecidableEq, Repr

/-- Value written to `fcfclksel` by the uniform `enable`
(`flexcomm.rs` lines 136-146). -/
def uniformFcfclksel : Clock → FcSel
  | .sfro => .sfroClk
  | .ffro => .ffroClk
  | .audioPll => .audioPllClk
  | .master => .masterClk
  | .fcnFrgMain => .fcnFrgClk
  | .fcnFrgPll => .fcnFrgClk
  | .fcnFrgSfro => .fcnFrgClk
  | .fcnFrgFfro => .fcnFrgClk
  | .none => .none

/-- Value written to `frgclksel` by the uniform `enable`
(`flexcomm.rs` lines 148-154). -/
def uniformFrgclksel : Clock → FrgSel
  | .fcnFrgMain => .mainClk
  | .fcnFrgPll => .frgPllClk
  | .fcnFrgSfro => .sfroClk
  | .fcnFrgFfro => .ffroClk
  | _ => .none

/-- Value written to `fc14fclksel` by the `FLEXCOMM14` `enable`
(`flexcomm.rs` lines 205-215). -/
def fc14Fcfclksel : Clock → FcSel
  | .sfro => .sfroClk
  | .ffro => .ffroClk
  | .audioPll => .audioPllClk
  | .master => .masterClk
  | .fcnFrgMain => .fcnFrgClk
  | .fcnFrgPll => .fcnFrgClk
  | .fcnFrgSfro => .fcnFrgClk
  | .fcnFrgFfro => .fcnFrgClk
  | .none => .none

/-- Value written to `frg14clksel` by the `FLEXCOMM14` `enable`
(`flexcomm.rs` lines 217-223). -/
def fc14Frgclksel : Clock → FrgSel
  | .fcnFrgMain => .mainClk
  | .fcnFrgPll => .frgPllClk
  | .fcnFrgSfro => .sfroClk
  | .fcnFrgFfro => .ffroClk
  | _ => .none

/-- Value written to `fc15fclksel` by the `FLEXCOMM15` `enable`
(`flexcomm.rs` lines 264-274). -/
def fc15Fcfclksel : Clock → FcSel
  | .sfro => .sfroClk
  | .ffro => .ffroClk
  | .audioPll => .audioPllClk
  | .master => .masterClk
  | .fcnFrgMain => .fcnFrgClk
  | .fcnFrgPll => .fcnFrgClk
  | .fcnFrgSfro => .fcnFrgClk
  | .fcnFrgFfro => .fcnFrgClk
  | .none => .none

/-- Value written to `frg15clksel` by the `FLEXCOMM15` `enable`
(`flexcomm.rs` lines 275-281). -/
def fc15Frgclksel : Clock → FrgSel
  | .fcnFrgMain => .mainClk
  | .fcnFrgPll => .frgPllClk
  | .fcnFrgSfro => .sfroClk
  | .fcnFrgFfro => .ffroClk
  | _ => .none

/-- Per-instance register state visible to this core: the two clock muxes,
the fractional-rate-generator multiplier field, the personality-select
field (`Option.none` until first written), and the clock/reset
collaborator's gate state. -/
structure Regs where
  fcfclksel : FlexcommInstance → FcSel
  frgclksel : FlexcommInstance → FrgSel
  frgctl : FlexcommInstance → Nat
  pselid : FlexcommInstance → Option Persel
  clockEnabled : FlexcommInstance → Bool

/-- Whole-system state: registers, the per-instance static `AtomicU8`
refcount (kept reduced modulo 256), and the append-only event trace. -/
structure Sys where
  regs : Regs
  refcount : FlexcommInstance → Nat
  trace : List Event

/-- Pointwise update of a per-instance map. -/
def upd {α : Type} (f : FlexcommInstance → α) (i : FlexcommInstance) (v : α) :
    FlexcommInstance → α :=
  fun j => if j = i then v else f j

/-- Reset state: every refcount 0 (the `State::new` initial value), muxes
at none, empty trace. -/
def initSys : Sys :=
  { regs :=
      { fcfclksel := fun _ => FcSel.none
        frgclksel := fun _ => FrgSel.none
        frgctl := fun _ => 0
        pselid := fun _ => Option.none
        clockEnabled := fun _ => false }
    refcount := fun _ => 0
    trace := [] }

/-- FlexcommRef::new (`flexcomm.rs` lines 73-80): `fetch_add(1)` on the u8
refcount, then `assert_eq!` that the pre-increment value was 0. The
returned Bool is true when the assertion fails (the process aborts); the
increment has already happened in either case, and the abort is recorded
as a trace event. -/
def flexcommRefNew (i : FlexcommInstance) (s : Sys) : Sys × Bool :=
  if s.refcount i % 256 = 0 then
    ({ s with refcount := upd s.refcount i ((s.refcount i + 1) % 256) }, false)
  else
    ({ s with
        refcount := upd s.refcount i ((s.refcount i + 1) % 256)
        trace := s.trace ++ [Event.abort] }, true)

/-- The uniform `FlexcommLowLevel::enable` body generated by
`impl_flexcomm!` (`flexcomm.rs` lines 132-167): write `fcfclksel`, write
`frgclksel`, write `frgctl` with `mult` 0, call `enable_and_reset`, then
`FlexcommRef::new`. Each register field is written once; the trace records
the write order. -/
def uniformEnable (i : FlexcommInstance) (clk : Clock) (s : Sys) : Sys × Bool :=
  flexcommRefNew i
    { regs :=
        { fcfclksel := upd s.regs.fcfclksel i (uniformFcfclksel clk)
          frgclksel := upd s.regs.frgclksel i (uniformFrgclksel clk)
          frgctl := upd s.regs.frgctl i 0
          pselid := s.regs.pselid
          clockEnabled := upd s.regs.clockEnabled i true }
      refcount := s.refcount
      trace := s.trace ++
        [Event.writeFcfclksel i (uniformFcfclksel clk),
         Event.writeFrgclksel i (uniformFrgclksel clk),
         Event.writeFrgctl i 0,
         Event.enableAndReset i] }

/-- The special `FLEXCOMM14` `enable` body (`flexcomm.rs` lines 201-233),
using the dedicated `fc14fclksel` / `frg14clksel` / `frg14ctl` registers. -/
def fc14Enable (clk : Clock) (s : Sys) : Sys × Bool :=
  flexcommRefNew .fc14
    { regs :=
        { fcfclksel := upd s.regs.fcfclksel .fc14 (fc14Fcfclksel clk)
          frgclksel := upd s.regs.frgclksel .fc14 (fc14Frgclksel clk)
          frgctl := upd s.regs.frgctl .fc14 0
          pselid := s.regs.pselid
          clockEnabled := upd s.regs.clockEnabled .fc14 true }
      refcount := s.refcount
      trace := s.trace ++
        [Event.writeFcfclksel .fc14 (fc14Fcfclksel clk),
         Event.writeFrgclksel .fc14 (fc14Frgclksel clk),
         Event.writeFrgctl .fc14 0,
         Event.enableAndReset .fc14] }

/-- The special `FLEXCOMM15` `enable` body (`flexcomm.rs` lines 260-290),
using the dedicated `fc15fclksel` / `frg15clksel` / `frg15ctl` registers. -/
def fc15Enable (clk : Clock) (s : Sys) : Sys × Bool :=
  flexcommRefNew .fc15
    { regs :=
        { fcfclksel := upd s.regs.fcfclksel .fc15 (fc15Fcfclksel clk)
          frgclksel := upd s.regs.frgclksel .fc15 (fc15Frgclksel clk)
          frgctl := upd s.regs.frgctl .fc15 0
          pselid := s.regs.pselid
          clockEnabled := upd s.regs.clockEnabled .fc15 true }
      refcount := s.refcount
      trace := s.trace ++
        [Event.writeFcfclksel .fc15 (fc15Fcfclksel clk),
         Event.writeFrgclksel .fc15 (fc15Frgclksel clk),
         Event.writeFrgctl .fc15 0,
         Event.enableAndReset .fc15] }

/-- `FlexcommLowLevel::enable` dispatched over the implementing instances,
exactly as the trait impls in the source dispatch it. -/
def enableOp : FlexcommInstance → Clock → Sys → Sys × Bool
  | .fc0 => uniformEnable .fc0
  | .fc1 => uniformEnable .fc1
  | .fc2 => uniformEnable .fc2
  | .fc3 => uniformEnable .fc3
  | .fc4 => uniformEnable .fc4
  | .fc5 => uniformEnable .fc5
  | .fc6 => uniformEnable .fc6
  | .fc7 => uniformEnable .fc7
  | .fc14 => fc14Enable
  | .fc15 => fc15Enable

/-- The uniform `FlexcommLowLevel::disable` body (`flexcomm.rs` lines
169-175): write none to `fcfclksel`, write none to `frgclksel`, then the
clock/reset collaborator's `disable`. -/
def uniformDisable (i : FlexcommInstance) (s : Sys) : Sys :=
  { regs :=
      { fcfclksel := upd s.regs.fcfclksel i FcSel.none
        frgclksel := upd s.regs.frgclksel i FrgSel.none
        frgctl := s.regs.frgctl
        pselid := s.regs.pselid
        clockEnabled := upd s.regs.clockEnabled i false }
    refcount := s.refcount
    trace := s.trace ++
      [Event.writeFcfclksel i FcSel.none,
       Event.writeFrgclksel i FrgSel.none,
       Event.disableClock i] }

/-- The special `FLEXCOMM14` `disable` body (`flexcomm.rs` lines 235-241). -/
def fc14Disable (s : Sys) : Sys :=
  { regs :=
      { fcfclksel := upd s.regs.fcfclksel .fc14 FcSel.none
        frgclksel := upd s.regs.frgclksel .fc14 FrgSel.none
        frgctl := s.regs.frgctl
        pselid := s.regs.pselid
        clockEnabled := upd s.regs.clockEnabled .fc14 false }
    refcount := s.refcount
    trace := s.trace ++
      [Event.writeFcfclksel .fc14 FcSel.none,
       Event.writeFrgclksel .fc14 FrgSel.none,
       Event.disableClock .fc14] }

/-- The special `FLEXCOMM15` `disable` body (`flexcomm.rs` lines 292-298). -/
def fc15Disable (s : Sys) : Sys :=
  { regs :=
      { fcfclksel := upd s.regs.fcfclksel .fc15 FcSel.none
        frgclksel := upd s.regs.frgclksel .fc15 FrgSel.none
        frgctl := s.regs.frgctl
        pselid := s.regs.pselid
        clockEnabled := upd s.regs.clockEnabled .fc15 false }
    refcount := s.refcount
    trace := s.trace ++
      [Event.writeFcfclksel .fc15 FcSel.none,
       Event.writeFrgclksel .fc15 FrgSel.none,
       Event.disableClock .fc15] }

/-- `FlexcommLowLevel::disable` dispatched over the implementing
instances. -/
def disableOp : FlexcommInstance → Sys → Sys
  | .fc0 => uniformDisable .fc0
  | .fc1 => uniformDisable .fc1
  | .fc2 => uniformDisable .fc2
  | .fc3 => uniformDisable .fc3
  | .fc4 => uniformDisable .fc4
  | .fc5 => uniformDisable .fc5
  | .fc6 => uniformDisable .fc6
  | .fc7 => uniformDisable .fc7
  | .fc14 => fc14Disable
  | .fc15 => fc15Disable

/-- Capability sets declared by the `into_mode!` invocations
(`flexcomm.rs` lines 332-360): the list of instances for which the trait
for a personality is implemented. -/
def modeInstances : Persel → List FlexcommInstance
  | .usart => [.fc0, .fc1, .fc2, .fc3, .fc4, .fc5, .fc6, .fc7]
  | .spi => [.fc0, .fc1, .fc2, .fc3, .fc4, .fc5, .fc6, .fc7, .fc14]
  | .i2c => [.fc0, .fc1, .fc2, .fc3, .fc4, .fc5, .fc6, .fc7, .fc15]
  | .i2s_transmit => [.fc0, .fc1, .fc2, .fc3, .fc4, .fc5, .fc6, .fc7]
  | .i2s_receive => [.fc0, .fc1, .fc2, .fc3, .fc4, .fc5, .fc6, .fc7]

/-- The `into_mode!` default method body (`flexcomm.rs` lines 317-319): a
single write of the `persel` field of `pselid`. The membership proof
argument models the sealed trait bound: the method only exists on
instances in the personality's capability set, so an out-of-set request is
not expressible. -/
def intoMode (i : FlexcommInstance) (m : Persel) (_h : i ∈ modeInstances m)
    (s : Sys) : Sys :=
  { regs :=
      { fcfclksel := s.regs.fcfclksel
        frgclksel := s.regs.frgclksel
        frgctl := s.regs.frgctl
        pselid := upd s.regs.pselid i (some m)
        clockEnabled := s.regs.clockEnabled }
    refcount := s.refcount
    trace := s.trace ++ [Event.writePselid i m] }

/-- Refcount effect of `Clone for FlexcommRef` (`flexcomm.rs` lines 83-91):
`fetch_add(1)` on the u8 refcount. -/
def cloneNext (rc : Nat) : Nat := (rc + 1) % 256

/-- Refcount effect of `Drop for FlexcommRef` (`flexcomm.rs` lines 93-99):
`fetch_sub(1)` on the u8 refcount. -/
def dropNext (rc : Nat) : Nat := (rc + 255) % 256

/-- Firing condition of `Drop for FlexcommRef`: the disable callback runs
exactly when `fetch_sub` returned 1, i.e. the pre-decrement refcount was
1. Refcounts are kept reduced below 256, so the stored u8 equals `rc`. -/
def dropFires (rc : Nat) : Bool := rc = 1

/-- Refcount after `FlexcommRef::new` from the legal refcount 0 (which
sets it to 1) followed by `n` clones. -/
def rcAfterClones : Nat → Nat
  | 0 => 1
  | n + 1 => cloneNext (rcAfterClones n)

/-- Per-release disable-callback flags for `k` consecutive releases
starting from refcount `rc`: entry `j` is true exactly when the `j`-th
release observed pre-decrement value 1 and so invoked the disable
callback. -/
def firesList : Nat → Nat → List Bool
  | 0, _ => []
  | k + 1, rc => dropFires rc :: firesList k (dropNext rc)

/-- Number of disable-callback invocations over `k` consecutive releases
starting from refcount `rc`. -/
def fireCount : Nat → Nat → Nat
  | 0, _ => 0
  | k + 1, rc => (if dropFires rc then 1 else 0) + fireCount k (dropNext rc)

/-- Refcount after `a` consecutive releases from `rc`. -/
def iterDrop : Nat → Nat → Nat
  | 0, rc => rc
  | a + 1, rc => iterDrop a (dropNext rc)

/-- Modelled from the spec: the primary clock-select mux value the spec
says `enable` must leave programmed — for the four generator-fed variants
the generator path, otherwise the upstream named by the source. Stated
separately from the source-side selector functions so the theorems compare
the code's final register state against the spec's words. -/
def specPrimaryMux : Clock → FcSel
  | .fcnFrgMain => .fcnFrgClk
  | .fcnFrgPll => .fcnFrgClk
  | .fcnFrgSfro => .fcnFrgClk
  | .fcnFrgFfro => .fcnFrgClk
  | .sfro => .sfroClk
  | .ffro => .ffroClk
  | .audioPll => .audioPllClk
  | .master => .masterClk
  | .none => .none

/-- Modelled from the spec: the fractional-rate-generator mux value the
spec says `enable` must leave programmed — the matching upstream reference
for the four generator-fed variants, none for every other source. -/
def specFrgMux : Clock → FrgSel
  | .fcnFrgMain => .mainClk
  | .fcnFrgPll => .frgPllClk
  | .fcnFrgSfro => .sfroClk
  | .fcnFrgFfro => .ffroClk
  | _ => .none

/-- Events with the instance identity erased, for comparing the observable
behaviour of the special-layout and uniform-layout enable paths. -/
inductive AbsEvent
  | wFcf (v : FcSel)
  | wFrg (v : FrgSel)
  | wMult (m : Nat)
  | enR
  | disR
  | wPsel (p : Persel)
  | abort
deriving DecidableEq, Repr

/-- Erase the instance identity from an event. -/
def absEvent : Event → AbsEvent
  | .writeFcfclksel _ v => .wFcf v
  | .writeFrgclksel _ v => .wFrg v
  | .writeFrgctl _ m => .wMult m
  | .enableAndReset _ => .enR
  | .disableClock _ => .disR
  | .writePselid _ p => .wPsel p
  | .abort => .abort

/-- Everything observable about one `enable` call on instance `i`: the
instance's final mux/generator/gate register values, its final refcount,
whether the call aborted, and the instance-erased list of effects the call
performed. -/
structure EnableObs where
  fcf : FcSel
  frg : FrgSel
  mult : Nat
  clockOn : Bool
  rcAfter : Nat
  panicked : Bool
  newEvents : List AbsEvent
deriving DecidableEq, Repr

/-- Observable behaviour of `enable` on instance `i` from state `s`. -/
def enableObs (i : FlexcommInstance) (clk : Clock) (s : Sys) : EnableObs :=
  { fcf := (enableOp i clk s).1.regs.fcfclksel i
    frg := (enableOp i clk s).1.regs.frgclksel i
    mult := (enableOp i clk s).1.regs.frgctl i
    clockOn := (enableOp i clk s).1.regs.clockEnabled i
    rcAfter := (enableOp i clk s).1.refcount i
    panicked := (enableOp i clk s).2
    newEvents := ((enableOp i clk s).1.trace.drop s.trace.length).map absEvent }

section RefcountLemmas

/-- Splitting a run of releases: the callback count over `a + b` releases
is the count over the first `a` plus the count over the remaining `b`,
started from the refcount reached after the first `a`. -/
lemma fireCount_add (a b rc : Nat) :
    fireCount (a + b) rc = fireCount a rc + fireCount b (iterDrop a rc) := by
  induction a generalizing rc with
  | zero => simp [fireCount, iterDrop]
  | succ a ih =>
    have h : a + 1 + b = (a + b) + 1 := by omega
    rw [h]
    simp only [fireCount, iterDrop, ih]
    omega

/-- After at least one release the refcount is reduced below 256. -/
lemma iterDrop_lt (a rc : Nat) : iterDrop (a + 1) rc < 256 := by
  induction a generalizing rc with
  | zero =>
    simp only [iterDrop, dropNext]
    omega
  | succ a ih => exact ih (dropNext rc)

/-- Closed form for the refcount after a positive number of releases. -/
lemma iterDrop_linear (a rc : Nat) :
    iterDrop (a + 1) rc = (rc + 255 * (a + 1)) % 256 := by
  induction a generalizing rc with
  | zero =>
    show (rc + 255) % 256 = (rc + 255 * (0 + 1)) % 256
    omega
  | succ a ih =>
    show iterDrop (a + 1) (dropNext rc) = _
    rw [ih (dropNext rc)]
    simp only [dropNext]
    omega

/-- Refcount after the legal `enable` plus `n` clones, in closed form. -/
lemma rcAfterClones_eq (n : Nat) : rcAfterClones n = (n + 1) % 256 := by
  induction n with
  | zero => simp [rcAfterClones]
  | succ n ih =>
    simp only [rcAfterClones, cloneNext, ih]
    omega

/-- Releasing `rc` live handles from a true (unwrapped) count `rc` of at
most 256 fires the disable callback exactly once, on the last release. -/
lemma firesList_last (rc : Nat) (h1 : 1 ≤ rc) (h2 : rc ≤ 256) :
    firesList rc (rc % 256) = List.replicate (rc - 1) false ++ [true] := by
  induction rc with
  | zero => omega
  | succ n ih =>
    have hdrop : dropNext ((n + 1) % 256) = n % 256 := by
      simp only [dropNext]
      omega
    rcases Nat.eq_or_lt_of_le h1 with h0 | h0
    · have hn : n = 0 := by omega
      subst hn
      simp [firesList, dropFires]
    · have hn1 : 1 ≤ n := by omega
      have hfire : dropFires ((n + 1) % 256) = false := by
        simp only [dropFires]
        simp only [decide_eq_false_iff_not]
        omega
      have htail := ih hn1 (by omega)
      simp only [firesList, hfire, hdrop, htail]
      have hrep : n + 1 - 1 = (n - 1) + 1 := by omega
      rw [hrep, List.replicate_succ]
      simp

/-- The callback count is the number of true entries of the per-release
flag list. -/
lemma fireCount_eq_count (k rc : Nat) :
    fireCount k rc = (firesList k rc).count true := by
  induction k generalizing rc with
  | zero => simp [fireCount, firesList]
  | succ k ih =>
    simp only [fireCount, firesList, List.count_cons, ih]
    cases h : dropFires rc <;> simp [h, Nat.add_comm]

/-- Releasing `rc` live handles from a true count `rc ≤ 256` fires the
callback exactly once. -/
lemma fireCount_one (rc : Nat) (h1 : 1 ≤ rc) (h2 : rc ≤ 256) :
    fireCount rc (rc % 256) = 1 := by
  rw [fireCount_eq_count, firesList_last rc h1 h2]
  simp [List.count_append, List.count_replicate]

/-- Fewer releases than the (true, below-256) refcount never reach
pre-decrement value 1, so the callback does not fire. -/
lemma fireCount_zero_of_short (k : Nat) :
    ∀ rc, k + 1 ≤ rc → rc ≤ 255 → fireCount k rc = 0 := by
  induction k with
  | zero => intro rc _ _; rfl
  | succ k ih =>
    intro rc hk hrc
    have hfire : dropFires rc = false := by
      simp only [dropFires, decide_eq_false_iff_not]
      omega
    have hdrop : dropNext rc = rc - 1 := by
      simp only [dropNext]
      omega
    simp only [fireCount, hfire, hdrop]
    simpa using ih (rc - 1) (by omega) (by omega)

/-- Releasing from a wrapped refcount of 0 fires nothing for up to 255
releases. -/
lemma fireCount_zero_start (k : Nat) (hk : k ≤ 255) : fireCount k 0 = 0 := by
  cases k with
  | zero => rfl
  | succ k =>
    have hfire : dropFires 0 = false := by simp [dropFires]
    have hdrop : dropNext 0 = 255 := by simp [dropNext]
    simp only [fireCount, hfire, hdrop]
    simpa using fireCount_zero_of_short k 255 (by omega) (by omega)

/-- Any full wrap of 256 consecutive releases from a reduced refcount
fires the callback exactly once. -/
lemma fireCount_cycle (rc : Nat) (h : rc < 256) : fireCount 256 rc = 1 := by
  rcases Nat.eq_zero_or_pos rc with h0 | h0
  · subst h0
    have hfire : dropFires 0 = false := by simp [dropFires]
    have hdrop : dropNext 0 = 255 := by simp [dropNext]
    show fireCount (255 + 1) 0 = 1
    rw [show (255 + 1) = 1 + 255 by omega, fireCount_add]
    simp only [fireCount, hfire, hdrop, if_false, iterDrop]
    have := fireCount_one 255 (by omega) (by omega)
    simpa using this
  · have hsplit : 256 = rc + (256 - rc) := by omega
    rw [hsplit, fireCount_add]
    have h1 : fireCount rc rc = 1 := by
      have := fireCount_one rc h0 (by omega)
      rwa [Nat.mod_eq_of_lt h] at this
    have hiter : iterDrop rc rc = 0 := by
      rcases Nat.exists_eq_add_of_le h0 with ⟨a, ha⟩
      have : rc = a + 1 := by omega
      rw [this, iterDrop_linear]
      omega
    rw [h1, hiter, fireCount_zero_start (256 - rc) (by omega)]

/-- Releasing all of `m ≥ 1` live handles fires the callback at least
once, whatever the wraparound did to the stored count. -/
lemma fireCount_ge_one : ∀ m, 1 ≤ m → 1 ≤ fireCount m (m % 256) := by
  intro m
  induction m using Nat.strong_induction_on with
  | _ m ih =>
    intro hm
    by_cases hle : m ≤ 256
    · rw [fireCount_one m hm hle]
    · have hm' : m = (m - 256) + 256 := by omega
      rw [hm', fireCount_add]
      have hmod : (m - 256 + 256) % 256 = (m - 256) % 256 := by omega
      rw [hmod]
      have h1 := ih (m - 256) (by omega) (by omega)
      omega

end RefcountLemmas

/-- Claim C1 (corrected: bounded by the u8 refcount width): after an
`enable` (refcount 0 → 1 via `FlexcommRef::new`) and `N ≤ 255` clones
(`Clone for FlexcommRef`), releasing all `N + 1` live handles
(`Drop for FlexcommRef`) fires the disable callback exactly once, on the
last release and never earlier: the per-release flag list is `N` times
false followed by one true, and a true flag by definition means the
pre-decrement refcount was exactly 1. Release order is immaterial because
every release performs the same `fetch_sub(1)` on the shared counter. -/
theorem clone_release_exactly_once_bounded (N : Nat) (h : N ≤ 255) :
    firesList (N + 1) (rcAfterClones N) = List.replicate N false ++ [true] := by
  rw [rcAfterClones_eq]
  have := firesList_last (N + 1) (by omega) (by omega)
  simpa using this

/-- Claim C1 counterexample: with `N = 511` clones the claim as stated
fails — releasing all 512 live handles fires the disable callback twice,
because the u8 refcount wrapped twice through the value 1. -/
theorem clone_release_unbounded_double_fire :
    fireCount 512 (rcAfterClones 511) = 2 := by decide

/-- Claim C1 witness: the spec's own two-handle scenario — one clone, two
releases, the callback fires only on the second release. -/
theorem clone_release_exactly_once_bounded_witness :
    (1 : Nat) ≤ 255 ∧
      firesList 2 (rcAfterClones 1) = List.replicate 1 false ++ [true] :=
  ⟨by decide, clone_release_exactly_once_bounded 1 (by decide)⟩

/-- Claim C9 counterexample: at exactly 256 simultaneously live handles —
the smallest count the claim says breaks the guarantee — the exactly-once
guarantee still holds: releasing all 256 handles fires the disable
callback exactly once, on the last release, even though the stored
refcount wrapped to 0 after the 255th clone. -/
theorem wrap_guarantee_holds_at_256 :
    rcAfterClones 255 = 0 ∧
      firesList 256 (rcAfterClones 255) = List.replicate 255 false ++ [true] := by
  constructor
  · decide
  · rw [rcAfterClones_eq]
    have := firesList_last 256 (by omega) (by omega)
    simpa using this

/-- Claim C9 (corrected: the breaking threshold is 257, not 256): the
refcount is an 8-bit counter with wrap-around — a clone at stored
refcount 255 wraps it to 0, and a release at stored refcount 0 wraps it
to 255 without firing the disable callback — and consequently with 257 or
more simultaneously live handles (not 256: see the counterexample)
releasing them all fires the disable callback at least twice, breaking
the exactly-once guarantee. -/
theorem refcount_wrap_behaviour :
    cloneNext 255 = 0 ∧ (dropNext 0 = 255 ∧ dropFires 0 = false) ∧
      ∀ H, 257 ≤ H → 2 ≤ fireCount H (rcAfterClones (H - 1)) := by
  refine ⟨by decide, ⟨by decide, by decide⟩, ?_⟩
  intro H hH
  have hrc : rcAfterClones (H - 1) = H % 256 := by
    rw [rcAfterClones_eq]
    congr 1
    omega
  rw [hrc]
  have hsplit : H = (H - 256) + 256 := by omega
  rw [hsplit, fireCount_add]
  have hmod : (H - 256 + 256) % 256 = (H - 256) % 256 := by omega
  rw [hmod]
  have h1 : 1 ≤ fireCount (H - 256) ((H - 256) % 256) :=
    fireCount_ge_one (H - 256) (by omega)
  have h2 : fireCount 256 (iterDrop (H - 256) ((H - 256) % 256)) = 1 := by
    apply fireCount_cycle
    rcases Nat.exists_eq_add_of_le (show 1 ≤ H - 256 by omega) with ⟨a, ha⟩
    rw [show H - 256 = a + 1 by omega]
    exact iterDrop_lt a _
  omega

/-- Claim C9 witness: 512 simultaneously live handles (511 clones after
the enable) make the disable callback fire at least twice. -/
theorem refcount_wrap_behaviour_witness :
    (257 : Nat) ≤ 512 ∧ 2 ≤ fireCount 512 (rcAfterClones (512 - 1)) :=
  ⟨by decide, refcount_wrap_behaviour.2.2 512 (by decide)⟩

section RegisterLemmas

/-- Updating an instance's cell and reading it back gives the new value. -/
lemma upd_same {α : Type} (f : FlexcommInstance → α) (i : FlexcommInstance)
    (v : α) : upd f i v i = v := by
  simp [upd]

/-- Updating one instance's cell leaves every other instance's cell
unchanged. -/
lemma upd_ne {α : Type} (f : FlexcommInstance → α) (i j : FlexcommInstance)
    (v : α) (h : j ≠ i) : upd f i v j = f j := by
  simp [upd, h]

/-- The uniform enable's `fcfclksel` selector agrees with the spec's
primary-mux table. -/
lemma uniformFcfclksel_eq_spec (clk : Clock) :
    uniformFcfclksel clk = specPrimaryMux clk := by
  cases clk <;> rfl

/-- The uniform enable's `frgclksel` selector agrees with the spec's
generator-mux table. -/
lemma uniformFrgclksel_eq_spec (clk : Clock) :
    uniformFrgclksel clk = specFrgMux clk := by
  cases clk <;> rfl

/-- The `FLEXCOMM14` enable's `fc14fclksel` selector agrees with the
spec's primary-mux table. -/
lemma fc14Fcfclksel_eq_spec (clk : Clock) :
    fc14Fcfclksel clk = specPrimaryMux clk := by
  cases clk <;> rfl

/-- The `FLEXCOMM14` enable's `frg14clksel` selector agrees with the
spec's generator-mux table. -/
lemma fc14Frgclksel_eq_spec (clk : Clock) :
    fc14Frgclksel clk = specFrgMux clk := by
  cases clk <;> rfl

/-- The `FLEXCOMM15` enable's `fc15fclksel` selector agrees with the
spec's primary-mux table. -/
lemma fc15Fcfclksel_eq_spec (clk : Clock) :
    fc15Fcfclksel clk = specPrimaryMux clk := by
  cases clk <;> rfl

/-- The `FLEXCOMM15` enable's `frg15clksel` selector agrees with the
spec's generator-mux table. -/
lemma fc15Frgclksel_eq_spec (clk : Clock) :
    fc15Frgclksel clk = specFrgMux clk := by
  cases clk <;> rfl

/-- `FlexcommRef::new` does not touch any register. -/
lemma flexcommRefNew_regs (i : FlexcommInstance) (s : Sys) :
    (flexcommRefNew i s).1.regs = s.regs := by
  unfold flexcommRefNew
  split <;> rfl

/-- `FlexcommRef::new` increments the bound refcount (mod 256) whether or
not the assertion passes. -/
lemma flexcommRefNew_refcount (i : FlexcommInstance) (s : Sys) :
    (flexcommRefNew i s).1.refcount =
      upd s.refcount i ((s.refcount i + 1) % 256) := by
  unfold flexcommRefNew
  split <;> rfl

/-- `FlexcommRef::new` aborts exactly when the pre-increment refcount was
nonzero. -/
lemma flexcommRefNew_snd (i : FlexcommInstance) (s : Sys) :
    (flexcommRefNew i s).2 = decide (¬ s.refcount i % 256 = 0) := by
  unfold flexcommRefNew
  split <;> rename_i h <;> simp [h]

/-- `FlexcommRef::new` appends an abort event exactly when the assertion
fails. -/
lemma flexcommRefNew_trace (i : FlexcommInstance) (s : Sys) :
    (flexcommRefNew i s).1.trace =
      s.trace ++ (if s.refcount i % 256 = 0 then [] else [Event.abort]) := by
  unfold flexcommRefNew
  split <;> rename_i h <;> simp [h]

/-- Register state after `enable` on any implementing instance: the
instance's primary mux holds the spec table value for the source, its
generator mux the spec generator table value, its generator multiplier 0,
its clock gate open; nothing else changes. -/
lemma enableOp_regs (i : FlexcommInstance) (clk : Clock) (s : Sys) :
    (enableOp i clk s).1.regs =
      { fcfclksel := upd s.regs.fcfclksel i (specPrimaryMux clk)
        frgclksel := upd s.regs.frgclksel i (specFrgMux clk)
        frgctl := upd s.regs.frgctl i 0
        pselid := s.regs.pselid
        clockEnabled := upd s.regs.clockEnabled i true } := by
  cases i <;>
    simp only [enableOp, uniformEnable, fc14Enable, fc15Enable,
      flexcommRefNew_regs, uniformFcfclksel_eq_spec, uniformFrgclksel_eq_spec,
      fc14Fcfclksel_eq_spec, fc14Frgclksel_eq_spec, fc15Fcfclksel_eq_spec,
      fc15Frgclksel_eq_spec]

/-- Refcount state after `enable` on any implementing instance. -/
lemma enableOp_refcount (i : FlexcommInstance) (clk : Clock) (s : Sys) :
    (enableOp i clk s).1.refcount =
      upd s.refcount i ((s.refcount i + 1) % 256) := by
  cases i <;> exact flexcommRefNew_refcount _ _

/-- `enable` aborts exactly when the prior refcount (reduced mod 256) was
nonzero. -/
lemma enableOp_snd (i : FlexcommInstance) (clk : Clock) (s : Sys) :
    (enableOp i clk s).2 = decide (¬ s.refcount i % 256 = 0) := by
  cases i <;> exact flexcommRefNew_snd _ _

/-- Effect order of `enable` on any implementing instance: primary mux
write, generator mux write, generator control write, then the clock/reset
collaborator's enable-and-reset, then (only on a failed refcount
assertion) the abort. -/
lemma enableOp_trace (i : FlexcommInstance) (clk : Clock) (s : Sys) :
    (enableOp i clk s).1.trace =
      (s.trace ++
        [Event.writeFcfclksel i (specPrimaryMux clk),
         Event.writeFrgclksel i (specFrgMux clk),
         Event.writeFrgctl i 0,
         Event.enableAndReset i]) ++
      (if s.refcount i % 256 = 0 then [] else [Event.abort]) := by
  cases i <;>
    simp only [enableOp, uniformEnable, fc14Enable, fc15Enable,
      flexcommRefNew_trace, uniformFcfclksel_eq_spec, uniformFrgclksel_eq_spec,
      fc14Fcfclksel_eq_spec, fc14Frgclksel_eq_spec, fc15Fcfclksel_eq_spec,
      fc15Frgclksel_eq_spec]

end RegisterLemmas

/-- Claim C2 (confirmed): on any implementing instance, `enable` from
refcount 0 does not abort and leaves the refcount at 1 (so the
`FlexcommRef` handle is returned), and `enable` from a nonzero refcount
aborts (the failed `assert_eq!` in `FlexcommRef::new`), so no handle is
returned. The bound `refcount < 256` states that the modelled counter is
within u8 range, which holds of every reachable state. -/
theorem enable_refcount_contract (i : FlexcommInstance) (clk : Clock) (s : Sys)
    (hlt : s.refcount i < 256) :
    ((enableOp i clk s).2 = true ↔ s.refcount i ≠ 0) ∧
    (s.refcount i = 0 →
      (enableOp i clk s).2 = false ∧ (enableOp i clk s).1.refcount i = 1) := by
  constructor
  · rw [enableOp_snd, Nat.mod_eq_of_lt hlt]
    simp
  · intro h0
    constructor
    · rw [enableOp_snd, h0]
      simp
    · rw [enableOp_refcount, upd_same, h0]

/-- Claim C2 witness: enabling FLEXCOMM2 with the SFRO source from the
reset state succeeds and leaves its refcount at 1. -/
theorem enable_refcount_contract_witness :
    initSys.refcount .fc2 < 256 ∧ initSys.refcount .fc2 = 0 ∧
    (enableOp .fc2 .sfro initSys).2 = false ∧
    (enableOp .fc2 .sfro initSys).1.refcount .fc2 = 1 :=
  ⟨by decide, rfl,
   ((enable_refcount_contract .fc2 .sfro initSys (by decide)).2 rfl).1,
   ((enable_refcount_contract .fc2 .sfro initSys (by decide)).2 rfl).2⟩

/-- Claim C3 (confirmed): after `enable` on any implementing instance with
any source, the instance's primary clock-select mux holds the generator
path for the four generator-fed variants and the named upstream otherwise,
and its fractional-rate-generator mux holds the matching upstream for the
four generator-fed variants and none for every other source — the
comparison tables `specPrimaryMux` / `specFrgMux` transcribe the spec's
words. -/
theorem enable_mux_programming (i : FlexcommInstance) (clk : Clock) (s : Sys) :
    (enableOp i clk s).1.regs.fcfclksel i = specPrimaryMux clk ∧
    (enableOp i clk s).1.regs.frgclksel i = specFrgMux clk := by
  rw [enableOp_regs]
  exact ⟨upd_same _ _ _, upd_same _ _ _⟩

/-- Claim C4 (confirmed): `disable` on any implementing instance, from any
state (hence regardless of the source chosen at the prior `enable`),
writes none to the primary mux and the generator mux and then invokes the
clock/reset collaborator's gate/reset-assert, in that order. -/
theorem disable_resets_muxes_then_gates (i : FlexcommInstance) (s : Sys) :
    (disableOp i s).regs.fcfclksel i = FcSel.none ∧
    (disableOp i s).regs.frgclksel i = FrgSel.none ∧
    (disableOp i s).regs.clockEnabled i = false ∧
    (disableOp i s).trace = s.trace ++
      [Event.writeFcfclksel i FcSel.none,
       Event.writeFrgclksel i FrgSel.none,
       Event.disableClock i] := by
  cases i <;> exact ⟨rfl, rfl, rfl, rfl⟩

/-- Claim C5 (confirmed): for every clock source (in particular AudioPll)
and any pair of states agreeing on the two refcounts, `enable` on the
special-layout FLEXCOMM14 and `enable` on the uniform-layout FLEXCOMM2
produce identical observables: final primary-mux selection, generator-mux
selection, generator multiplier, clock gate, refcount, abort behaviour,
and the same sequence of effects up to the register names (instance-erased
events). -/
theorem fc14_uniform_enable_equiv (clk : Clock) (s1 s2 : Sys)
    (h : s1.refcount .fc14 = s2.refcount .fc2) :
    enableObs .fc14 clk s1 = enableObs .fc2 clk s2 := by
  simp only [enableObs, enableOp_regs, enableOp_refcount, enableOp_snd,
    enableOp_trace, upd_same, h]
  by_cases hc : s2.refcount .fc2 % 256 = 0 <;>
    simp [hc, List.append_assoc, List.drop_left, absEvent]

/-- Claim C5 witness: from the reset state, enabling FLEXCOMM14 with
AudioPll is observationally identical to enabling FLEXCOMM2 with
AudioPll. -/
theorem fc14_uniform_enable_equiv_witness :
    initSys.refcount .fc14 = initSys.refcount .fc2 ∧
    enableObs .fc14 .audioPll initSys = enableObs .fc2 .audioPll initSys :=
  ⟨rfl, fc14_uniform_enable_equiv .audioPll initSys initSys rfl⟩

/-- Claim C6 (confirmed): the capability sets declared by the `into_mode!`
instantiations give FLEXCOMM14 exactly one personality (spi) and
FLEXCOMM15 exactly one personality (i2c); none of the other four
personalities is in their sets, so — since `intoMode` demands a membership
proof, modelling the sealed trait bound — requesting them is not
expressible through the interface. -/
theorem special_instance_capability_sets :
    (∀ m : Persel, FlexcommInstance.fc14 ∈ modeInstances m ↔ m = Persel.spi) ∧
    (∀ m : Persel, FlexcommInstance.fc15 ∈ modeInstances m ↔ m = Persel.i2c) := by
  decide

/-- Claim C7 (confirmed): for any instance, any in-capability personality
and any state — with no condition on the refcount or on handle existence —
`intoMode` performs exactly one write, to the personality-select field,
and leaves the refcount map, both clock-mux register maps, the generator
control map and the clock gates untouched. -/
theorem intoMode_single_write_frame (i : FlexcommInstance) (m : Persel)
    (h : i ∈ modeInstances m) (s : Sys) :
    (intoMode i m h s).regs.pselid i = some m ∧
    (∀ j, j ≠ i → (intoMode i m h s).regs.pselid j = s.regs.pselid j) ∧
    (intoMode i m h s).refcount = s.refcount ∧
    (intoMode i m h s).regs.fcfclksel = s.regs.fcfclksel ∧
    (intoMode i m h s).regs.frgclksel = s.regs.frgclksel ∧
    (intoMode i m h s).regs.frgctl = s.regs.frgctl ∧
    (intoMode i m h s).regs.clockEnabled = s.regs.clockEnabled ∧
    (intoMode i m h s).trace = s.trace ++ [Event.writePselid i m] := by
  refine ⟨upd_same _ _ _, ?_, rfl, rfl, rfl, rfl, rfl, rfl⟩
  intro j hj
  exact upd_ne _ _ _ _ hj

/-- Claim C7 witness: selecting usart on FLEXCOMM0 in the reset state —
whose refcount is 0, i.e. no handle exists — writes its personality field
and changes no refcount and no clock register. -/
theorem intoMode_single_write_frame_witness :
    (FlexcommInstance.fc0 ∈ modeInstances Persel.usart) ∧
    (intoMode .fc0 .usart (by decide) initSys).regs.pselid .fc0 =
      some Persel.usart ∧
    FlexcommInstance.fc1 ≠ FlexcommInstance.fc0 ∧
    (intoMode .fc0 .usart (by decide) initSys).regs.pselid .fc1 =
      initSys.regs.pselid .fc1 ∧
    (intoMode .fc0 .usart (by decide) initSys).refcount = initSys.refcount ∧
    (intoMode .fc0 .usart (by decide) initSys).regs.fcfclksel =
      initSys.regs.fcfclksel :=
  ⟨by decide,
   (intoMode_single_write_frame .fc0 .usart (by decide) initSys).1,
   by decide,
   (intoMode_single_write_frame .fc0 .usart (by decide) initSys).2.1 .fc1
     (by decide),
   (intoMode_single_write_frame .fc0 .usart (by decide) initSys).2.2.1,
   (intoMode_single_write_frame .fc0 .usart (by decide) initSys).2.2.2.1⟩

/-- Claim C8 counterexample: the set of instance identities implementing
the sealed low-level interface has ten elements, not sixteen — the source
instantiates `impl_flexcomm!` for indices 0-7 only, plus the two special
impls. -/
theorem sealed_set_not_sixteen :
    Fintype.card FlexcommInstance = 10 ∧ Fintype.card FlexcommInstance ≠ 16 := by
  decide

/-- Claim C8 (corrected: ten identities, eight uniform, not sixteen and
fourteen): the identities implementing the sealed low-level configuration
interface form a fixed closed set of ten values — eight with the uniform
indexed register layout and two special instances (14 and 15) with
dedicated registers; the exhaustiveness of the `FlexcommInstance`
inductive models that external code cannot add identities. -/
theorem sealed_set_closed_ten :
    (∀ i : FlexcommInstance, i ∈ allInstances) ∧
    allInstances.length = 10 ∧
    (allInstances.filter fun i => decide (layout i = Layout.uniform)).length
      = 8 ∧
    (allInstances.filter fun i => decide (layout i = Layout.special)).length
      = 2 := by
  decide

/-- Claim C10 (confirmed): a precondition-violating `enable` (refcount not
0, within u8 range) is not atomic — the trace shows both mux writes, the
generator-control write and the collaborator's enable-and-reset all
happening before the abort, and the refcount is left at its previous value
plus one (mod 256, the refcount being a u8), with the instance's registers
reprogrammed for the new source. -/
theorem enable_precondition_violation_effects (i : FlexcommInstance)
    (clk : Clock) (s : Sys) (hlt : s.refcount i < 256)
    (hne : s.refcount i ≠ 0) :
    (enableOp i clk s).2 = true ∧
    (enableOp i clk s).1.trace = s.trace ++
      [Event.writeFcfclksel i (specPrimaryMux clk),
       Event.writeFrgclksel i (specFrgMux clk),
       Event.writeFrgctl i 0,
       Event.enableAndReset i,
       Event.abort] ∧
    (enableOp i clk s).1.refcount i = (s.refcount i + 1) % 256 ∧
    (enableOp i clk s).1.regs.fcfclksel i = specPrimaryMux clk ∧
    (enableOp i clk s).1.regs.frgclksel i = specFrgMux clk ∧
    (enableOp i clk s).1.regs.clockEnabled i = true := by
  have hmod := Nat.mod_eq_of_lt hlt
  refine ⟨?_, ?_, ?_, ?_, ?_, ?_⟩
  · rw [enableOp_snd, hmod]
    simp only [decide_eq_true_eq]
    exact hne
  · rw [enableOp_trace, hmod, if_neg hne]
    simp [List.append_assoc]
  · rw [enableOp_refcount, upd_same]
  · rw [enableOp_regs]
    exact upd_same _ _ _
  · rw [enableOp_regs]
    exact upd_same _ _ _
  · rw [enableOp_regs]
    exact upd_same _ _ _

/-- State with one live handle on FLEXCOMM2 (refcount 1), for exercising
the precondition-violating second `enable`. -/
def busySys : Sys :=
  { initSys with refcount := upd initSys.refcount .fc2 1 }

/-- Claim C10 witness: a second `enable` of FLEXCOMM2 while its refcount
is 1 aborts with the refcount bumped to 2 and the registers already
reprogrammed. -/
theorem enable_precondition_violation_effects_witness :
    busySys.refcount .fc2 < 256 ∧ busySys.refcount .fc2 ≠ 0 ∧
    (enableOp .fc2 .sfro busySys).2 = true ∧
    (enableOp .fc2 .sfro busySys).1.refcount .fc2 =
      (busySys.refcount .fc2 + 1) % 256 ∧
    (enableOp .fc2 .sfro busySys).1.regs.clockEnabled .fc2 = true :=
  ⟨by decide, by decide,
   (enable_precondition_violation_effects .fc2 .sfro busySys (by decide)
     (by decide)).1,
   (enable_precondition_violation_effects .fc2 .sfro busySys (by decide)
     (by decide)).2.2.1,
   (enable_precondition_violation_effects .fc2 .sfro busySys (by decide)
     (by decide)).2.2.2.2.2⟩

end Flexcomm
